import Mathlib

/-!
Verification development for the eCFR analyzer ingestion pipeline.

The definitions below are a shallow embedding of the Go source:
- `Service.md5Hex`, `Service.calculateChecksum` embed `crypto/md5` + `hex.EncodeToString`
  as used by `internal/service/parser.go`;
- `Service.Parse` embeds `Parser.Parse` (parser.go), over an explicit stream of
  decoder results standing for successive `xml.Decoder.Token()` calls;
- `Service.fetchWithRetry` embeds the retry loop of `internal/service/ecfr_client.go`;
- `Store` definitions embed `internal/store/agency_store.go`: the snapshot upserts
  (`SaveTitleWithSnapshot`, `InsertSnapshotIfChanged`), the recursive agency rollup
  (`calculateAgencyWordCount`), the density-score percentiles
  (`calculateDensityScores`), and the import statistics (`PrintSummary`).

Machine integers are modelled by `Nat` with explicit masking by `2^32` where the Go
code relies on 32-bit wraparound (inside MD5); Go `float64` percentile arithmetic is
modelled over `ℚ` (every value the claims mention is exactly representable).
-/

namespace Service

/-- Mask for 32-bit words, used to model Go `uint32` wraparound inside MD5. -/
def mask32 : Nat := 0xFFFFFFFF

/-- Left-rotation of a 32-bit word by `s` places. -/
def rotl32 (x s : Nat) : Nat := ((x <<< s) ||| (x >>> (32 - s))) &&& mask32

/-- Round function F of MD5: `(b ∧ c) ∨ (¬b ∧ d)`. -/
def md5F (b c d : Nat) : Nat := (b &&& c) ||| ((b ^^^ mask32) &&& d)

/-- Round function G of MD5: `(d ∧ b) ∨ (¬d ∧ c)`. -/
def md5G (b c d : Nat) : Nat := (d &&& b) ||| ((d ^^^ mask32) &&& c)

/-- Round function H of MD5: `b ⊕ c ⊕ d`. -/
def md5H (b c d : Nat) : Nat := b ^^^ c ^^^ d

/-- Round function I of MD5: `c ⊕ (b ∨ ¬d)`. -/
def md5I (b c d : Nat) : Nat := (c ^^^ (b ||| (d ^^^ mask32))) &&& mask32

/-- Per-round shift amounts of MD5 (RFC 1321). -/
def md5s : List Nat :=
  [7, 12, 17, 22, 7, 12, 17, 22, 7, 12, 17, 22, 7, 12, 17, 22,
   5, 9, 14, 20, 5, 9, 14, 20, 5, 9, 14, 20, 5, 9, 14, 20,
   4, 11, 16, 23, 4, 11, 16, 23, 4, 11, 16, 23, 4, 11, 16, 23,
   6, 10, 15, 21, 6, 10, 15, 21, 6, 10, 15, 21, 6, 10, 15, 21]

/-- Per-round additive constants of MD5 (RFC 1321). -/
def md5K : List Nat :=
  [0xd76aa478, 0xe8c7b756, 0x242070db, 0xc1bdceee,
   0xf57c0faf, 0x4787c62a, 0xa8304613, 0xfd469501,
   0x698098d8, 0x8b44f7af, 0xffff5bb1, 0x895cd7be,
   0x6b901122, 0xfd987193, 0xa679438e, 0x49b40821,
   0xf61e2562, 0xc040b340, 0x265e5a51, 0xe9b6c7aa,
   0xd62f105d, 0x02441453, 0xd8a1e681, 0xe7d3fbc8,
   0x21e1cde6, 0xc33707d6, 0xf4d50d87, 0x455a14ed,
   0xa9e3e905, 0xfcefa3f8, 0x676f02d9, 0x8d2a4c8a,
   0xfffa3942, 0x8771f681, 0x6d9d6122, 0xfde5380c,
   0xa4beea44, 0x4bdecfa9, 0xf6bb4b60, 0xbebfbc70,
   0x289b7ec6, 0xeaa127fa, 0xd4ef3085, 0x04881d05,
   0xd9d4d039, 0xe6db99e5, 0x1fa27cf8, 0xc4ac5665,
   0xf4292244, 0x432aff97, 0xab9423a7, 0xfc93a039,
   0x655b59c3, 0x8f0ccc92, 0xffeff47d, 0x85845dd1,
   0x6fa87e4f, 0xfe2ce6e0, 0xa3014314, 0x4e0811a1,
   0xf7537e82, 0xbd3af235, 0x2ad7d2bb, 0xeb86d391]

/-- Little-endian bytes of `n`, `count` bytes long. -/
def leBytes (n count : Nat) : List Nat :=
  (List.range count).map (fun i => (n >>> (8 * i)) &&& 0xFF)

/-- Little-endian 32-bit word number `g` of a 64-byte block. -/
def leWord (block : List Nat) (g : Nat) : Nat :=
  block.getD (4 * g) 0 + 256 * block.getD (4 * g + 1) 0 +
    65536 * block.getD (4 * g + 2) 0 + 16777216 * block.getD (4 * g + 3) 0

/-- One MD5 round (round index `i`, state `(a, b, c, d)`). -/
def md5Step (block : List Nat) (st : Nat × Nat × Nat × Nat) (i : Nat) :
    Nat × Nat × Nat × Nat :=
  let a := st.1
  let b := st.2.1
  let c := st.2.2.1
  let d := st.2.2.2
  let fg : Nat × Nat :=
    if i < 16 then (md5F b c d, i)
    else if i < 32 then (md5G b c d, (5 * i + 1) % 16)
    else if i < 48 then (md5H b c d, (3 * i + 5) % 16)
    else (md5I b c d, (7 * i) % 16)
  let f := (fg.1 + a + md5K.getD i 0 + leWord block fg.2) &&& mask32
  (d, (b + rotl32 f (md5s.getD i 0)) &&& mask32, b, c)

/-- One 64-byte MD5 block applied to the running state. -/
def md5Block (st : Nat × Nat × Nat × Nat) (block : List Nat) :
    Nat × Nat × Nat × Nat :=
  let r := (List.range 64).foldl (md5Step block) st
  ((st.1 + r.1) &&& mask32, (st.2.1 + r.2.1) &&& mask32,
   (st.2.2.1 + r.2.2.1) &&& mask32, (st.2.2.2 + r.2.2.2) &&& mask32)

/-- MD5 padding: a `0x80` byte, zeros to 56 mod 64, then the bit length, little-endian. -/
def md5Pad (msg : List Nat) : List Nat :=
  let k := (56 + 64 - (msg.length + 1) % 64) % 64
  msg ++ [0x80] ++ List.replicate k 0 ++ leBytes ((8 * msg.length) % 2 ^ 64) 8

/-- Accumulator pass for `chunks64` (structural recursion so the kernel can evaluate). -/
def chunksGo : List Nat → List Nat → List (List Nat)
  | [], acc => if acc.isEmpty then [] else [acc.reverse]
  | b :: rest, acc =>
    if acc.length = 63 then (acc.reverse ++ [b]) :: chunksGo rest []
    else chunksGo rest (b :: acc)

/-- Split a byte list into 64-byte chunks. -/
def chunks64 (l : List Nat) : List (List Nat) := chunksGo l []

/-- MD5 digest of a byte sequence, as 16 bytes. -/
def md5Bytes (msg : List Nat) : List Nat :=
  let fin := (chunks64 (md5Pad msg)).foldl md5Block
    (0x67452301, 0xefcdab89, 0x98badcfe, 0x10325476)
  leBytes fin.1 4 ++ leBytes fin.2.1 4 ++ leBytes fin.2.2.1 4 ++ leBytes fin.2.2.2 4

/-- Lowercase hex digit for a value below 16, as `hex.EncodeToString` produces. -/
def hexDigit (n : Nat) : Char := if n < 10 then Char.ofNat (48 + n) else Char.ofNat (87 + n)

/-- Two lowercase hex digits of one byte. -/
def byteHex (b : Nat) : String := String.mk [hexDigit (b / 16), hexDigit (b % 16)]

/-- Lowercase hex string of a byte list, modelling `hex.EncodeToString`. -/
def bytesToHex (bs : List Nat) : String := String.join (bs.map byteHex)

/-- Hex-encoded MD5 digest of a byte sequence. -/
def md5Hex (msg : List Nat) : String := bytesToHex (md5Bytes msg)

/-- Embeds `calculateChecksum` (parser.go): `hex.EncodeToString(md5.Sum(content))`. -/
def calculateChecksum (content : List Nat) : String := md5Hex content

/-- Bytes of an ASCII string (the serializations hashed by the rollup are ASCII). -/
def strBytes (s : String) : List Nat := s.toList.map Char.toNat

/-- Whitespace as `unicode.IsSpace` classifies it on the ASCII range
(`strings.TrimSpace` and `strings.Fields` use this predicate). -/
def isGoSpace (c : Char) : Bool :=
  (c == ' ') || (c == '\t') || (c == '\n') || (c == '\x0b') || (c == '\x0c') || (c == '\r')

/-- Embeds `strings.TrimSpace`: drop whitespace from both ends. -/
def goTrimSpace (s : String) : String :=
  String.mk (((s.toList.dropWhile isGoSpace).reverse.dropWhile isGoSpace).reverse)

/-- Accumulator pass for `goFields`. -/
def fieldsGo : List Char → List Char → List String
  | [], acc => if acc.isEmpty then [] else [String.mk acc.reverse]
  | c :: cs, acc =>
    if isGoSpace c then
      if acc.isEmpty then fieldsGo cs [] else String.mk acc.reverse :: fieldsGo cs []
    else fieldsGo cs (c :: acc)

/-- Embeds `strings.Fields`: maximal runs of non-whitespace characters. -/
def goFields (s : String) : List String := fieldsGo s.toList []

/-- Tokens produced by `xml.Decoder.Token()`, as parser.go consumes them:
start elements carry their attribute list, end elements their name, and
character data its raw text. -/
inductive XmlToken where
  | startElement (name : String) (attrs : List (String × String))
  | endElement (name : String)
  | charData (data : String)
deriving DecidableEq

/-- Embeds `isTextElement` (parser.go): the allow-list of elements holding prose. -/
def isTextElement (name : String) : Bool :=
  match name with
  | "P" | "FP" | "HD" | "HEAD" | "PRTPAGE" | "EDNOTE" | "NOTE" | "EXTRACT" | "APPRO" => true
  | _ => false

/-- Mutable scan state of `Parser.Parse`: the `strings.Builder` contents, the
single `inTextElement` flag, and the running section count. -/
structure ScanState where
  builder : String
  inTextElement : Bool
  sectionCount : Nat
deriving DecidableEq

/-- Embeds one iteration of the token loop in `Parser.Parse` (parser.go):
`DIV8` elements with a `TYPE="SECTION"` attribute bump the section count (the
inner attribute loop breaks after the first match, so at most once per element);
any allow-listed start tag sets the flag, any allow-listed end tag clears it;
character data is trimmed and, when nonempty and the flag is set, appended to
the builder with a trailing space. -/
def processToken (st : ScanState) : XmlToken → ScanState
  | .startElement name attrs =>
    let st1 :=
      if name == "DIV8" && attrs.any (fun attr => attr.1 == "TYPE" && attr.2 == "SECTION")
      then { st with sectionCount := st.sectionCount + 1 }
      else st
    if isTextElement name then { st1 with inTextElement := true } else st1
  | .endElement name =>
    if isTextElement name then { st with inTextElement := false } else st
  | .charData dat =>
    if st.inTextElement then
      let text := goTrimSpace dat
      if text ≠ "" then { st with builder := st.builder ++ text ++ " " } else st
    else st

/-- Embeds the `decoder.Token()` loop of `Parser.Parse`: each list entry is one
decoder result; the loop breaks at the first decode error (or end of input) and
keeps whatever was accumulated so far. -/
def scanStream : List (Except String XmlToken) → ScanState → ScanState
  | [], st => st
  | Except.error _ :: _, st => st
  | Except.ok t :: rest, st => scanStream rest (processToken st t)

/-- Result of `Parser.Parse` (parser.go). -/
structure ParseResult where
  WordCount : Nat
  SectionCount : Nat
  Checksum : String
deriving DecidableEq

/-- Embeds `Parser.Parse` (parser.go). The checksum of the raw content bytes is
computed first, the decoder stream is scanned until its first error, and the
word count is the number of `strings.Fields` of the accumulated builder text.
The Go signature returns `(*ParseResult, error)`; every path returns a non-nil
result and a nil error, modelled by `Except.ok`. -/
def Parse (content : List Nat) (stream : List (Except String XmlToken)) :
    Except String ParseResult :=
  let checksum := calculateChecksum content
  let fin := scanStream stream { builder := "", inTextElement := false, sectionCount := 0 }
  let text := fin.builder
  let wordCount := if text ≠ "" then (goFields text).length else 0
  Except.ok { WordCount := wordCount, SectionCount := fin.sectionCount, Checksum := checksum }

/-- Embeds the constant `maxRetries = 3` of ecfr_client.go. -/
def maxRetries : Nat := 3

/-- Observable outcome of one attempt of the loop body in `fetchWithRetry`:
either `c.client.Do` fails, or `io.ReadAll` on the body fails, or a response
with some status code and body is obtained. -/
inductive AttemptOutcome where
  | transportError (msg : String)
  | readError (msg : String)
  | response (status : Nat) (body : String)
deriving DecidableEq

/-- Errors recorded into `lastErr` by the loop body of `fetchWithRetry`:
`rateLimited` stands for `fmt.Errorf("rate limited (HTTP 429)")` and
`badStatus` for `fmt.Errorf("unexpected status code: %d", code)`. -/
inductive FetchErr where
  | transport (msg : String)
  | readFail (msg : String)
  | rateLimited
  | badStatus (code : Nat)
deriving DecidableEq

/-- Return value of `fetchWithRetry`: the body on success, `ctx.Err()` on
cancellation, or `fmt.Errorf("failed after %d attempts: %w", maxRetries, lastErr)`
on exhaustion. -/
inductive FetchResult where
  | success (body : String)
  | ctxCancelled
  | failedAfter (attempts : Nat) (last : Option FetchErr)
deriving DecidableEq

/-- Error recorded for a failing attempt, following the order of checks in the
loop body (read/transport errors, then 429, then any status other than 200). -/
def errOf : AttemptOutcome → FetchErr
  | .transportError m => .transport m
  | .readError m => .readFail m
  | .response s _ => if s = 429 then .rateLimited else .badStatus s

/-- True when the loop body records an error and retries (every outcome except a
status-200 response). -/
def attemptFails : AttemptOutcome → Bool
  | .response s _ => !(s == 200)
  | _ => true

/-- Embeds the `for attempt := 0; attempt < maxRetries; attempt++` loop of
`fetchWithRetry` (ecfr_client.go). `fuel` is the remaining number of loop
iterations (`maxRetries - attempt`), so the recursion is structural and the
kernel can evaluate it. `cancelled a` tells whether the execution context was
done during the backoff wait preceding attempt `a` (the `select` on `ctx.Done()`).
The second component of the result counts how many attempts were actually
performed (how many times the request was issued). -/
def fetchLoop (cancelled : Nat → Bool) (outcome : Nat → AttemptOutcome) :
    Nat → Nat → Option FetchErr → Nat → FetchResult × Nat
  | 0, _, lastErr, performed => (.failedAfter maxRetries lastErr, performed)
  | fuel + 1, attempt, _lastErr, performed =>
    if 0 < attempt ∧ cancelled attempt = true then (.ctxCancelled, performed)
    else
      match outcome attempt with
      | .transportError m =>
        fetchLoop cancelled outcome fuel (attempt + 1) (some (.transport m)) (performed + 1)
      | .readError m =>
        fetchLoop cancelled outcome fuel (attempt + 1) (some (.readFail m)) (performed + 1)
      | .response status body =>
        if status = 429 then
          fetchLoop cancelled outcome fuel (attempt + 1) (some .rateLimited) (performed + 1)
        else if status ≠ 200 then
          fetchLoop cancelled outcome fuel (attempt + 1) (some (.badStatus status)) (performed + 1)
        else (.success body, performed + 1)

/-- Embeds `fetchWithRetry` (ecfr_client.go): run the loop from attempt 0 with
a `nil` last error and the full budget. (`http.NewRequestWithContext` cannot
fail for a constant GET method and a well-formed URL, so that early return is
not modelled.) -/
def fetchWithRetry (cancelled : Nat → Bool) (outcome : Nat → AttemptOutcome) :
    FetchResult × Nat :=
  fetchLoop cancelled outcome maxRetries 0 none 0

end Service

namespace Importer

/-- One agency of the in-memory forest walked by `calculateRollupWordCounts`:
its database id, the title numbers directly linked to it (`GetAgencyTitles`),
and its children (`childrenMap`). The Go code assumes the `parent_id` relation
is a forest, which the inductive tree makes explicit. -/
inductive AgencyNode where
  | mk (id : Nat) (directTitles : List Nat) (children : List AgencyNode)

/-- Database id of a node. -/
def AgencyNode.id : AgencyNode → Nat
  | .mk i _ _ => i

/-- Directly linked title numbers of a node. -/
def AgencyNode.directTitles : AgencyNode → List Nat
  | .mk _ d _ => d

/-- Children of a node. -/
def AgencyNode.children : AgencyNode → List AgencyNode
  | .mk _ _ c => c

mutual

/-- Embeds the `titleSet` computed by `calculateAgencyWordCount`
(agency_store.go): the directly linked titles are inserted into the
`map[int]bool`, then each child's returned set is merged in. A Go
`map[int]bool` used as a set, with unspecified iteration order, is modelled by
`Finset Nat`. -/
def calculateAgencyWordCount : AgencyNode → Finset Nat
  | .mk _ direct children => direct.toFinset ∪ childTitleSets children

/-- Embeds the `for _, childID := range childrenMap[agencyID]` recursion of
`calculateAgencyWordCount`: the union of the sets returned for each child. -/
def childTitleSets : List AgencyNode → Finset Nat
  | [] => ∅
  | c :: cs => calculateAgencyWordCount c ∪ childTitleSets cs

end

/-- Embeds `sort.Ints(titleNums)` applied to the keys extracted from
`titleSet`: the members of the set in ascending order. -/
def sortedTitleNums (n : AgencyNode) : List Nat :=
  (calculateAgencyWordCount n).sort (· ≤ ·)

/-- Embeds the loop `for _, titleNum := range titleNums` of
`calculateAgencyWordCount`, which accumulates `totalWordCount` and
`checksumInput` (`fmt.Sprintf("%d:%d;", titleNum, wordCount)` appended per
title) in one pass. `wc` stands for `GetTitleWordCount`, which returns 0 for a
title absent from the store. -/
def sumAndSerialize (wc : Nat → Nat) (titleNums : List Nat) : Nat × String :=
  titleNums.foldl
    (fun acc t => (acc.1 + wc t, acc.2 ++ toString t ++ ":" ++ toString (wc t) ++ ";"))
    (0, "")

/-- Aggregate word count persisted by `UpdateWordCount` for a node. -/
def totalWordCount (wc : Nat → Nat) (n : AgencyNode) : Nat :=
  (sumAndSerialize wc (sortedTitleNums n)).1

/-- Serialization hashed into the rollup checksum for a node. -/
def checksumInput (wc : Nat → Nat) (n : AgencyNode) : String :=
  (sumAndSerialize wc (sortedTitleNums n)).2

/-- Aggregate regulation count persisted for a node: `len(titleSet)`. -/
def regulationCount (n : AgencyNode) : Nat := (calculateAgencyWordCount n).card

/-- Aggregate rollup checksum for a node:
`hex.EncodeToString(md5.Sum([]byte(checksumInput)))`. -/
def agencyChecksum (wc : Nat → Nat) (n : AgencyNode) : String :=
  Service.md5Hex (Service.strBytes (checksumInput wc n))

end Importer

namespace Store

/-- Fields of `AgencyWithDepth` read and written by `calculateDensityScores`
(agency_store.go). `DensityScore` is a Go `float64`, zero-valued before the
function runs; it is modelled over `ℚ` (every value the function assigns in the
cases under study — `0.5` and untouched inputs — is exact in both). -/
structure AgencyWithDepth where
  TotalWordCount : Nat
  TitleCount : Nat
  DensityScore : ℚ
deriving DecidableEq

/-- Embeds the first loop of `calculateDensityScores`: collect
`(index, density)` for every agency with `TitleCount > 0`, where
`density = TotalWordCount / TitleCount`. `i` is the running index of the
`for i := range agencies` loop. -/
def collectDensities : List AgencyWithDepth → Nat → List (Nat × ℚ)
  | [], _ => []
  | a :: rest, i =>
    if 0 < a.TitleCount then
      (i, (a.TotalWordCount : ℚ) / (a.TitleCount : ℚ)) :: collectDensities rest (i + 1)
    else collectDensities rest (i + 1)

/-- Insertion step of the ascending sort by density (`sort.Slice` with a `<`
comparator; ties have unspecified relative order in Go and none of the proved
statements depends on tie order). -/
def insertByDensity (x : Nat × ℚ) : List (Nat × ℚ) → List (Nat × ℚ)
  | [] => [x]
  | y :: ys => if x.2 < y.2 then x :: y :: ys else y :: insertByDensity x ys

/-- Ascending sort by density. -/
def sortByDensity : List (Nat × ℚ) → List (Nat × ℚ)
  | [] => []
  | x :: xs => insertByDensity x (sortByDensity xs)

/-- Embeds the `for rank, d := range densities` loop: pair each original index
with its percentile score `rank / (n - 1)`, overridden to `0.5` when `n = 1`
(in Go the `0/0` float division yields NaN and is then overwritten by `0.5`). -/
def assignScores (n : Nat) : List (Nat × ℚ) → Nat → List (Nat × ℚ)
  | [], _ => []
  | d :: rest, rank =>
    (d.1, if n = 1 then 1 / 2 else (rank : ℚ) / ((n : ℚ) - 1)) :: assignScores n rest (rank + 1)

/-- Writes the computed scores back by index (`agencies[d.index].DensityScore = …`);
an index with no computed score keeps its value. -/
def applyScores (scores : List (Nat × ℚ)) : List AgencyWithDepth → Nat → List AgencyWithDepth
  | [], _ => []
  | a :: rest, i =>
    (match scores.lookup i with
     | some sc => { a with DensityScore := sc }
     | none => a) :: applyScores scores rest (i + 1)

/-- Embeds `calculateDensityScores` (agency_store.go): collect densities of
agencies with `TitleCount > 0`; if none, return with no scores assigned;
otherwise sort ascending and assign percentile ranks. -/
def calculateDensityScores (agencies : List AgencyWithDepth) : List AgencyWithDepth :=
  let densities := collectDensities agencies 0
  if densities.isEmpty then agencies
  else
    let sorted := sortByDensity densities
    applyScores (assignScores sorted.length sorted 0) agencies 0

end Store

namespace Importer

/-- Embeds `ImportStats` (the per-run counters of the orchestrator). -/
structure ImportStats where
  Total : Nat
  Imported : Nat
  Changed : Nat
  Unchanged : Nat
  Skipped : Nat
  Failed : Nat
deriving DecidableEq

/-- Outcome of `importTitle` for one non-reserved title: persisted with a new
or updated snapshot (`changed`), persisted unchanged, or failed. -/
inductive TitleOutcome where
  | changedOk
  | unchangedOk
  | failed
deriving DecidableEq

/-- One iteration of the per-title loop of `Import` (agency_store.go): a
reserved title is counted as skipped and nothing else runs; otherwise
`importTitle` either fails (counted failed) or succeeds (counted imported,
plus changed or unchanged). -/
def importStep (stats : ImportStats) (t : Bool × TitleOutcome) : ImportStats :=
  if t.1 then { stats with Skipped := stats.Skipped + 1 }
  else
    match t.2 with
    | .failed => { stats with Failed := stats.Failed + 1 }
    | .changedOk =>
      { stats with Imported := stats.Imported + 1, Changed := stats.Changed + 1 }
    | .unchangedOk =>
      { stats with Imported := stats.Imported + 1, Unchanged := stats.Unchanged + 1 }

/-- Embeds the statistics bookkeeping of `Import`: `Total` is set to the length
of the fetched title list up front, then the loop processes each title. Each
list entry is `(reserved flag, outcome of importTitle)`. -/
def runImport (titles : List (Bool × TitleOutcome)) : ImportStats :=
  titles.foldl importStep
    { Total := titles.length, Imported := 0, Changed := 0, Unchanged := 0,
      Skipped := 0, Failed := 0 }

/-- Divisor of the success-rate expression in `PrintSummary`
(`float64(stats.Imported) / float64(stats.Total-stats.Skipped) * 100`): the
source divides by `Total - Skipped` with no zero guard, so the divisor itself
is the object of study (the `float64` division is not modelled). -/
def printSummaryDivisor (stats : ImportStats) : Int :=
  (stats.Total : Int) - (stats.Skipped : Int)

end Importer

namespace Store

/-- Input of `SaveTitleWithSnapshot`: the fields of `model.Title` the function
persists. Dates and timestamps are modelled as day numbers. -/
structure Title where
  TitleNumber : Nat
  TitleName : String
  WordCount : Nat
  SectionCount : Nat
  Checksum : String
  LastAmendedDate : Option Nat
  FetchedAt : Nat
deriving DecidableEq

/-- Row of the `titles` table (unique on `title_number`). -/
structure TitleRow where
  rowId : Nat
  titleNumber : Nat
  titleName : String
  wordCount : Nat
  sectionCount : Nat
  checksum : String
  lastAmendedDate : Option Nat
  fetchedAt : Nat
deriving DecidableEq

/-- Row of the `title_snapshots` table (unique on `(title_number, snapshot_date)`;
`full_content` and `created_at` are never read by the functions under study and
are omitted). -/
structure TitleSnapshotRow where
  rowId : Nat
  titleNumber : Nat
  titleName : String
  wordCount : Nat
  sectionCount : Nat
  checksum : String
  lastAmendedDate : Option Nat
  snapshotDate : Nat
deriving DecidableEq

/-- State touched by `TitleStore`: both tables plus the `SERIAL` id counter. -/
structure TitleDB where
  titles : List TitleRow
  snapshots : List TitleSnapshotRow
  nextId : Nat
deriving DecidableEq

/-- Conflict predicate of the `title_snapshots` unique key. -/
def snapKeyB (n d : Nat) (r : TitleSnapshotRow) : Bool :=
  r.titleNumber == n && r.snapshotDate == d

/-- Embeds the `INSERT INTO titles … ON CONFLICT (title_number) DO UPDATE`
statement: update the non-key columns of the conflicting row, or append a new
row with a fresh id. -/
def upsertTitle (db : TitleDB) (t : Title) : TitleDB :=
  if db.titles.any (fun r => r.titleNumber == t.TitleNumber) then
    { db with titles := db.titles.map (fun r =>
        if r.titleNumber == t.TitleNumber then
          { r with titleName := t.TitleName, wordCount := t.WordCount,
                   sectionCount := t.SectionCount, checksum := t.Checksum,
                   lastAmendedDate := t.LastAmendedDate, fetchedAt := t.FetchedAt }
        else r) }
  else
    { db with
      titles := db.titles ++
        [{ rowId := db.nextId, titleNumber := t.TitleNumber, titleName := t.TitleName,
           wordCount := t.WordCount, sectionCount := t.SectionCount,
           checksum := t.Checksum, lastAmendedDate := t.LastAmendedDate,
           fetchedAt := t.FetchedAt }],
      nextId := db.nextId + 1 }

/-- Embeds the `INSERT INTO title_snapshots … ON CONFLICT (title_number,
snapshot_date) DO UPDATE` statement of `SaveTitleWithSnapshot`. -/
def upsertTitleSnapshot (db : TitleDB) (t : Title) (d : Nat) : TitleDB :=
  if db.snapshots.any (snapKeyB t.TitleNumber d) then
    { db with snapshots := db.snapshots.map (fun r =>
        if snapKeyB t.TitleNumber d r then
          { r with titleName := t.TitleName, wordCount := t.WordCount,
                   sectionCount := t.SectionCount, checksum := t.Checksum,
                   lastAmendedDate := t.LastAmendedDate }
        else r) }
  else
    { db with
      snapshots := db.snapshots ++
        [{ rowId := db.nextId, titleNumber := t.TitleNumber, titleName := t.TitleName,
           wordCount := t.WordCount, sectionCount := t.SectionCount,
           checksum := t.Checksum, lastAmendedDate := t.LastAmendedDate,
           snapshotDate := d }],
      nextId := db.nextId + 1 }

/-- Embeds `SaveTitleWithSnapshot` (agency_store.go): read the checksum of the
snapshot row for this `(title_number, snapshot_date)` if any; `changed` is true
when no such row exists or its checksum differs; always upsert the current
`titles` row; insert/update the snapshot row only when `changed`. -/
def SaveTitleWithSnapshot (db : TitleDB) (t : Title) (snapshotDate : Nat) :
    TitleDB × Bool :=
  let existing := db.snapshots.find? (snapKeyB t.TitleNumber snapshotDate)
  let changed :=
    match existing with
    | none => true
    | some r => r.checksum != t.Checksum
  let db1 := upsertTitle db t
  let db2 := if changed then upsertTitleSnapshot db1 t snapshotDate else db1
  (db2, changed)

/-- Number of `title_snapshots` rows for one `(title_number, snapshot_date)`. -/
def snapKeyCount (db : TitleDB) (n d : Nat) : Nat :=
  (db.snapshots.filter (snapKeyB n d)).length

/-- Input of `InsertSnapshotIfChanged`: the fields of `model.AgencySnapshot`
the function persists. -/
structure AgencySnapshot where
  AgencyID : Nat
  AgencyName : String
  TotalWordCount : Nat
  RegulationCount : Nat
  Checksum : String
  SnapshotDate : Nat
deriving DecidableEq

/-- Row of the `agency_snapshots` table (unique on `(agency_id, snapshot_date)`). -/
structure AgencySnapshotRow where
  rowId : Nat
  agencyId : Nat
  agencyName : String
  totalWordCount : Nat
  regulationCount : Nat
  checksum : String
  snapshotDate : Nat
deriving DecidableEq

/-- State touched by `InsertSnapshotIfChanged`: the `agency_snapshots` table,
the `agency_snapshot_titles` links `(agency_snapshot_id, title_number)`, and
the id counter. -/
structure AgencySnapDB where
  snapshots : List AgencySnapshotRow
  links : List (Nat × Nat)
  nextId : Nat
deriving DecidableEq

/-- Conflict predicate of the `agency_snapshots` unique key. -/
def agencySnapKeyB (a d : Nat) (r : AgencySnapshotRow) : Bool :=
  r.agencyId == a && r.snapshotDate == d

/-- Embeds the link-insertion loop of `InsertSnapshotIfChanged`
(`ON CONFLICT (agency_snapshot_id, title_number) DO NOTHING`). -/
def insertSnapshotLinks (db : AgencySnapDB) (snapId : Nat) (titleNumbers : List Nat) :
    AgencySnapDB :=
  let step := fun (ls : List (Nat × Nat)) (t : Nat) =>
    if ls.any (fun l => l.1 == snapId && l.2 == t) then ls else ls ++ [(snapId, t)]
  { db with links := titleNumbers.foldl step db.links }

/-- Row written for an agency snapshot. -/
def agencySnapRow (id : Nat) (snap : AgencySnapshot) : AgencySnapshotRow :=
  { rowId := id, agencyId := snap.AgencyID, agencyName := snap.AgencyName,
    totalWordCount := snap.TotalWordCount, regulationCount := snap.RegulationCount,
    checksum := snap.Checksum, snapshotDate := snap.SnapshotDate }

/-- Embeds `InsertSnapshotIfChanged` (agency_store.go): if a snapshot row for
this `(agency_id, snapshot_date)` already carries the same checksum, return
`false` and write nothing. Otherwise upsert the snapshot row (`ON CONFLICT …
DO UPDATE … RETURNING id` keeps the existing row's id on conflict), insert the
title links under that id, and return `true`. -/
def InsertSnapshotIfChanged (db : AgencySnapDB) (snap : AgencySnapshot)
    (titleNumbers : List Nat) : AgencySnapDB × Bool :=
  match db.snapshots.find? (agencySnapKeyB snap.AgencyID snap.SnapshotDate) with
  | some r =>
    if r.checksum == snap.Checksum then (db, false)
    else
      let db1 := { db with snapshots := db.snapshots.map (fun r0 =>
        if agencySnapKeyB snap.AgencyID snap.SnapshotDate r0 then
          { r0 with agencyName := snap.AgencyName,
                    totalWordCount := snap.TotalWordCount,
                    regulationCount := snap.RegulationCount,
                    checksum := snap.Checksum }
        else r0) }
      (insertSnapshotLinks db1 r.rowId titleNumbers, true)
  | none =>
    let db1 : AgencySnapDB :=
      { snapshots := db.snapshots ++ [agencySnapRow db.nextId snap],
        links := db.links, nextId := db.nextId + 1 }
    (insertSnapshotLinks db1 db.nextId titleNumbers, true)

/-- Number of `agency_snapshots` rows for one `(agency_id, snapshot_date)`. -/
def agencySnapKeyCount (db : AgencySnapDB) (a d : Nat) : Nat :=
  (db.snapshots.filter (agencySnapKeyB a d)).length

/-- Example snapshot row (title 1, date 10, checksum "abc") for concrete checks. -/
def exTitleSnapRow : TitleSnapshotRow :=
  { rowId := 0, titleNumber := 1, titleName := "T", wordCount := 3, sectionCount := 1,
    checksum := "abc", lastAmendedDate := none, snapshotDate := 10 }

/-- Example store holding exactly that snapshot row. -/
def exTitleDB : TitleDB := { titles := [], snapshots := [exTitleSnapRow], nextId := 1 }

/-- Example title whose checksum matches the stored snapshot. -/
def exTitleSame : Title :=
  { TitleNumber := 1, TitleName := "T", WordCount := 3, SectionCount := 1,
    Checksum := "abc", LastAmendedDate := none, FetchedAt := 99 }

/-- Example title with changed content (different checksum). -/
def exTitleNew : Title :=
  { TitleNumber := 1, TitleName := "T", WordCount := 4, SectionCount := 1,
    Checksum := "xyz", LastAmendedDate := none, FetchedAt := 99 }

/-- Example agency snapshot row (agency 5, date 10, checksum "ck"). -/
def exAgencySnapRow : AgencySnapshotRow :=
  { rowId := 0, agencyId := 5, agencyName := "A", totalWordCount := 7,
    regulationCount := 2, checksum := "ck", snapshotDate := 10 }

/-- Example agency snapshot store holding exactly that row. -/
def exAgencyDB : AgencySnapDB := { snapshots := [exAgencySnapRow], links := [], nextId := 1 }

/-- Example agency aggregate identical to the stored snapshot. -/
def exAgencySnap : AgencySnapshot :=
  { AgencyID := 5, AgencyName := "A", TotalWordCount := 7, RegulationCount := 2,
    Checksum := "ck", SnapshotDate := 10 }

end Store

namespace Service

/-- Everything after the first decoder error is ignored: the scan of a stream
that errors mid-way equals the scan of the successfully decoded prefix. -/
theorem scanStream_truncates (ts : List XmlToken) (e : String)
    (rest : List (Except String XmlToken)) (st : ScanState) :
    scanStream (ts.map Except.ok ++ Except.error e :: rest) st =
      scanStream (ts.map Except.ok) st := by
  induction ts generalizing st with
  | nil => rfl
  | cons t ts ih =>
    simp only [List.map_cons, List.cons_append, scanStream]
    exact ih _

/-- C4: for every input byte sequence and decoder stream, `Parse` returns a
non-nil result with a nil error; the returned `Checksum` equals the hex-encoded
MD5 digest of the complete raw input bytes regardless of how the scan went; and
a decode error mid-stream silently truncates the scan, so the counts
accumulated up to the truncation point are still returned. -/
theorem parse_total_checksum_pure :
    (∀ (content : List Nat) (stream : List (Except String XmlToken)),
        ∃ r, Parse content stream = Except.ok r ∧ r.Checksum = calculateChecksum content) ∧
    (∀ (content : List Nat) (ts : List XmlToken) (e : String)
        (rest : List (Except String XmlToken)),
        Parse content (ts.map Except.ok ++ Except.error e :: rest) =
          Parse content (ts.map Except.ok)) := by
  constructor
  · intro content stream
    exact ⟨_, rfl, rfl⟩
  · intro content ts e rest
    simp only [Parse, scanStream_truncates]

/-- C10: with one allow-listed text element nested inside another (a `NOTE`
inside a `P`), the inner end tag clears the single `inTextElement` flag, so the
character data `"gamma"` that follows the inner close while still inside the
outer `P` contributes zero words: the parse result is identical with and
without it, and the word count is 2 (`alpha`, `beta`), not 3. -/
theorem nested_text_flag_anomaly :
    Parse []
        [Except.ok (XmlToken.startElement "P" []),
         Except.ok (XmlToken.charData "alpha"),
         Except.ok (XmlToken.startElement "NOTE" []),
         Except.ok (XmlToken.charData "beta"),
         Except.ok (XmlToken.endElement "NOTE"),
         Except.ok (XmlToken.charData "gamma"),
         Except.ok (XmlToken.endElement "P")] =
      Parse []
        [Except.ok (XmlToken.startElement "P" []),
         Except.ok (XmlToken.charData "alpha"),
         Except.ok (XmlToken.startElement "NOTE" []),
         Except.ok (XmlToken.charData "beta"),
         Except.ok (XmlToken.endElement "NOTE"),
         Except.ok (XmlToken.endElement "P")] ∧
    (Parse []
        [Except.ok (XmlToken.startElement "P" []),
         Except.ok (XmlToken.charData "alpha"),
         Except.ok (XmlToken.startElement "NOTE" []),
         Except.ok (XmlToken.charData "beta"),
         Except.ok (XmlToken.endElement "NOTE"),
         Except.ok (XmlToken.charData "gamma"),
         Except.ok (XmlToken.endElement "P")]).map ParseResult.WordCount =
      Except.ok 2 := by
  constructor
  · rfl
  · rfl

/-- Cancellation observed in the backoff select before attempt `a` (with
`a > 0`) ends the loop at once with the context's error, performing no further
attempt. -/
theorem fetchLoop_cancel (c : Nat → Bool) (o : Nat → AttemptOutcome)
    (fuel a : Nat) (l : Option FetchErr) (p : Nat)
    (ha : 0 < a) (hc : c a = true) :
    fetchLoop c o (fuel + 1) a l p = (FetchResult.ctxCancelled, p) := by
  simp [fetchLoop, ha, hc]

/-- A failing attempt (anything but a status-200 response) records its error
into `lastErr` and continues with the next attempt. -/
theorem fetchLoop_fail_step (c : Nat → Bool) (o : Nat → AttemptOutcome)
    (fuel a : Nat) (l : Option FetchErr) (p : Nat)
    (hf : attemptFails (o a) = true) (hc : a = 0 ∨ c a = false) :
    fetchLoop c o (fuel + 1) a l p =
      fetchLoop c o fuel (a + 1) (some (errOf (o a))) (p + 1) := by
  have hcc : ¬(0 < a ∧ c a = true) := by
    rcases hc with h | h
    · omega
    · simp [h]
  cases ho : o a with
  | transportError m => simp [fetchLoop, hcc, ho, errOf]
  | readError m => simp [fetchLoop, hcc, ho, errOf]
  | response s b =>
    have hs : s ≠ 200 := by
      intro h
      rw [ho, h] at hf
      simp [attemptFails] at hf
    by_cases h429 : s = 429
    · subst h429
      simp [fetchLoop, hcc, ho, errOf]
    · simp [fetchLoop, hcc, ho, errOf, h429, hs]

/-- A status-200 response returns its body immediately as success. -/
theorem fetchLoop_success (c : Nat → Bool) (o : Nat → AttemptOutcome)
    (fuel a : Nat) (l : Option FetchErr) (p : Nat) (b : String)
    (ho : o a = AttemptOutcome.response 200 b) (hc : a = 0 ∨ c a = false) :
    fetchLoop c o (fuel + 1) a l p = (FetchResult.success b, p + 1) := by
  have hcc : ¬(0 < a ∧ c a = true) := by
    rcases hc with h | h
    · omega
    · simp [h]
  simp [fetchLoop, hcc, ho]

/-- C5: with the attempt budget `maxRetries = 3` and no cancellation, a fetch
that fails on exactly the first two attempts and gets a 200 response on the
third returns that body as success; if all three attempts fail, the result
wraps the last observed error together with the attempt count, and exactly
three attempts are performed (no further ones). -/
theorem retry_budget_spec (c : Nat → Bool) (o : Nat → AttemptOutcome)
    (hnc : ∀ i, c i = false) :
    (∀ b, attemptFails (o 0) = true → attemptFails (o 1) = true →
        o 2 = AttemptOutcome.response 200 b →
        fetchWithRetry c o = (FetchResult.success b, 3)) ∧
    ((∀ i, i < 3 → attemptFails (o i) = true) →
        fetchWithRetry c o =
          (FetchResult.failedAfter maxRetries (some (errOf (o 2))), 3)) := by
  constructor
  · intro b h0 h1 h2
    show fetchLoop c o 3 0 none 0 = _
    rw [fetchLoop_fail_step c o 2 0 none 0 h0 (Or.inl rfl)]
    rw [fetchLoop_fail_step c o 1 1 _ 1 h1 (Or.inr (hnc 1))]
    exact fetchLoop_success c o 0 2 _ 2 b h2 (Or.inr (hnc 2))
  · intro hall
    show fetchLoop c o 3 0 none 0 = _
    rw [fetchLoop_fail_step c o 2 0 none 0 (hall 0 (by omega)) (Or.inl rfl)]
    rw [fetchLoop_fail_step c o 1 1 _ 1 (hall 1 (by omega)) (Or.inr (hnc 1))]
    rw [fetchLoop_fail_step c o 0 2 _ 2 (hall 2 (by omega)) (Or.inr (hnc 2))]
    rfl

/-- Witness for C5: two transport failures then a 200 give success after three
attempts; three straight 503 responses exhaust the budget and wrap the last
`unexpected status code` error with the attempt count. -/
theorem retry_budget_witness :
    fetchWithRetry (fun _ => false)
        (fun i => if i = 2 then AttemptOutcome.response 200 "ok"
                  else AttemptOutcome.transportError "timeout") =
      (FetchResult.success "ok", 3) ∧
    fetchWithRetry (fun _ => false) (fun _ => AttemptOutcome.response 503 "err") =
      (FetchResult.failedAfter maxRetries (some (FetchErr.badStatus 503)), 3) :=
  ⟨(retry_budget_spec (fun _ => false)
        (fun i => if i = 2 then AttemptOutcome.response 200 "ok"
                  else AttemptOutcome.transportError "timeout")
        (fun _ => rfl)).1 "ok" (by decide) (by decide) (by decide),
   (retry_budget_spec (fun _ => false) (fun _ => AttemptOutcome.response 503 "err")
        (fun _ => rfl)).2 (by decide)⟩

/-- C6 counterexample: a 204 response is 2xx but is not returned as success —
`fetchWithRetry` treats it as `unexpected status code: 204`, retries, and
exhausts the budget, refuting the claim that any 2xx status returns the body
immediately. -/
theorem non200_2xx_not_success_cex :
    fetchWithRetry (fun _ => false) (fun _ => AttemptOutcome.response 204 "x") =
      (FetchResult.failedAfter 3 (some (FetchErr.badStatus 204)), 3) ∧
    (fetchWithRetry (fun _ => false) (fun _ => AttemptOutcome.response 204 "x")).1 ≠
      FetchResult.success "x" := by
  constructor
  · decide
  · decide

/-- C6 (amended): only a status-200 response returns the body immediately as
success on that attempt; a 429 response is recorded as a `rate limited` error
and retried exactly like any other failure; and every other non-200 status
(including other 2xx statuses) is likewise recorded and retried, up to the same
budget of `maxRetries` attempts. -/
theorem status_classification_amended (c : Nat → Bool) (o : Nat → AttemptOutcome)
    (hnc : ∀ i, c i = false) :
    (∀ b, o 0 = AttemptOutcome.response 200 b →
        fetchWithRetry c o = (FetchResult.success b, 1)) ∧
    (∀ s b, s ≠ 200 → o 0 = AttemptOutcome.response s b →
        fetchWithRetry c o =
          fetchLoop c o 2 1
            (some (if s = 429 then FetchErr.rateLimited else FetchErr.badStatus s)) 1) ∧
    ((∀ i, i < 3 → attemptFails (o i) = true) →
        fetchWithRetry c o =
          (FetchResult.failedAfter maxRetries (some (errOf (o 2))), 3)) := by
  refine ⟨?_, ?_, (retry_budget_spec c o hnc).2⟩
  · intro b h0
    exact fetchLoop_success c o 2 0 none 0 b h0 (Or.inl rfl)
  · intro s b hs h0
    show fetchLoop c o 3 0 none 0 = _
    rw [fetchLoop_fail_step c o 2 0 none 0 (by simp [attemptFails, h0, hs]) (Or.inl rfl)]
    rw [h0]
    simp [errOf]

/-- Witness for C6 (amended): a first-attempt 200 succeeds immediately after
one attempt; a first-attempt 429 leaves the loop in the retry state with
`rateLimited` recorded; three 418 responses exhaust the budget. -/
theorem status_classification_witness :
    fetchWithRetry (fun _ => false) (fun _ => AttemptOutcome.response 200 "body") =
      (FetchResult.success "body", 1) ∧
    fetchWithRetry (fun _ => false) (fun _ => AttemptOutcome.response 429 "slow") =
      fetchLoop (fun _ => false) (fun _ => AttemptOutcome.response 429 "slow") 2 1
        (some FetchErr.rateLimited) 1 ∧
    fetchWithRetry (fun _ => false) (fun _ => AttemptOutcome.response 418 "tea") =
      (FetchResult.failedAfter maxRetries (some (FetchErr.badStatus 418)), 3) := by
  refine ⟨(status_classification_amended (fun _ => false)
      (fun _ => AttemptOutcome.response 200 "body") (fun _ => rfl)).1 "body" rfl, ?_, ?_⟩
  · have h := (status_classification_amended (fun _ => false)
      (fun _ => AttemptOutcome.response 429 "slow") (fun _ => rfl)).2.1 429 "slow"
      (by decide) rfl
    simpa using h
  · have h := (status_classification_amended (fun _ => false)
      (fun _ => AttemptOutcome.response 418 "tea") (fun _ => rfl)).2.2 (by decide)
    simpa using h

/-- C7: if every attempt before `k` fails, the context is not cancelled before
`k`, and the context is cancelled during the backoff wait preceding attempt
`k` (with `1 ≤ k < maxRetries`), then `fetchWithRetry` returns the context's
cancellation error — not the retry-exhaustion error — and performs only the
`k` attempts already made, so cancellation consumes no retry attempt. -/
theorem cancel_during_backoff_spec (c : Nat → Bool) (o : Nat → AttemptOutcome)
    (k : Nat) (h1 : 1 ≤ k) (hk : k < maxRetries)
    (hfail : ∀ i, i < k → attemptFails (o i) = true)
    (hnc : ∀ i, i < k → c i = false) (hc : c k = true) :
    fetchWithRetry c o = (FetchResult.ctxCancelled, k) := by
  have hk3 : k < 3 := hk
  interval_cases k
  · show fetchLoop c o 3 0 none 0 = _
    rw [fetchLoop_fail_step c o 2 0 none 0 (hfail 0 (by omega)) (Or.inl rfl)]
    exact fetchLoop_cancel c o 1 1 _ 1 (by omega) hc
  · show fetchLoop c o 3 0 none 0 = _
    rw [fetchLoop_fail_step c o 2 0 none 0 (hfail 0 (by omega)) (Or.inl rfl)]
    rw [fetchLoop_fail_step c o 1 1 _ 1 (hfail 1 (by omega)) (Or.inr (hnc 1 (by omega)))]
    exact fetchLoop_cancel c o 0 2 _ 2 (by omega) hc

/-- Witness for C7: one failed attempt, then cancellation during the first
backoff wait: the result is the cancellation error after exactly one performed
attempt. -/
theorem cancel_during_backoff_witness :
    fetchWithRetry (fun i => decide (i = 1)) (fun _ => AttemptOutcome.transportError "t") =
      (FetchResult.ctxCancelled, 1) :=
  cancel_during_backoff_spec (fun i => decide (i = 1))
    (fun _ => AttemptOutcome.transportError "t") 1 (by decide) (by decide)
    (fun i _ => rfl) (fun i hi => by interval_cases i; rfl) (by decide)

end Service

namespace Store

/-- Mapping a key-preserving function over a table leaves the number of rows
matching any key unchanged. -/
theorem length_filter_map_of_pres {α : Type} (l : List α) (f : α → α) (p : α → Bool)
    (hf : ∀ x, p (f x) = p x) :
    ((l.map f).filter p).length = (l.filter p).length := by
  induction l with
  | nil => rfl
  | cons x xs ih =>
    simp only [List.map_cons, List.filter_cons, hf]
    cases hp : p x <;> simp [ih]

/-- The `titles` upsert never touches the `snapshots` table. -/
theorem upsertTitle_snapshots (db : TitleDB) (t : Title) :
    (upsertTitle db t).snapshots = db.snapshots := by
  rw [upsertTitle]
  by_cases h : db.titles.any (fun r => r.titleNumber == t.TitleNumber) <;> simp [h]

/-- The update arm of the snapshot upsert does not modify key columns. -/
theorem snapKeyB_update_pres (t : Title) (d n dd : Nat) (r : TitleSnapshotRow) :
    snapKeyB n dd
      (if snapKeyB t.TitleNumber d r then
        { r with titleName := t.TitleName, wordCount := t.WordCount,
                 sectionCount := t.SectionCount, checksum := t.Checksum,
                 lastAmendedDate := t.LastAmendedDate }
      else r) = snapKeyB n dd r := by
  simp only [snapKeyB]
  split <;> rfl

/-- Filtering a one-row table yields at most one row. -/
theorem length_filter_singleton_le {α : Type} (p : α → Bool) (x : α) :
    ([x].filter p).length ≤ 1 := by
  by_cases h : p x <;> simp [List.filter_cons, h]

/-- The snapshot upsert keeps at most one row per `(title_number, snapshot_date)`. -/
theorem snapKeyCount_upsertTitleSnapshot (db : TitleDB) (t : Title) (d n dd : Nat)
    (h : snapKeyCount db n dd ≤ 1) :
    snapKeyCount (upsertTitleSnapshot db t d) n dd ≤ 1 := by
  rw [upsertTitleSnapshot]
  by_cases hany : db.snapshots.any (snapKeyB t.TitleNumber d) = true
  · rw [if_pos hany]
    show ((db.snapshots.map _).filter _).length ≤ 1
    rw [length_filter_map_of_pres _ _ _ (snapKeyB_update_pres t d n dd)]
    exact h
  · have hall : ∀ x ∈ db.snapshots, ¬ snapKeyB t.TitleNumber d x = true := by
      simpa [List.any_eq_true] using hany
    rw [if_neg hany]
    show ((db.snapshots ++ _).filter _).length ≤ 1
    rw [List.filter_append, List.length_append]
    by_cases hnew : n = t.TitleNumber ∧ dd = d
    · rcases hnew with ⟨hn, hd⟩
      have hzero : (db.snapshots.filter (snapKeyB n dd)).length = 0 := by
        rw [hn, hd, List.length_eq_zero, List.filter_eq_nil_iff]
        exact hall
      rw [hzero]
      simpa using length_filter_singleton_le (snapKeyB n dd) _
    · have hnotp : snapKeyB n dd
          { rowId := db.nextId, titleNumber := t.TitleNumber, titleName := t.TitleName,
            wordCount := t.WordCount, sectionCount := t.SectionCount,
            checksum := t.Checksum, lastAmendedDate := t.LastAmendedDate,
            snapshotDate := d } = false := by
        simp only [snapKeyB, Bool.and_eq_false_iff, beq_eq_false_iff_ne, ne_eq]
        omega
      simp only [List.filter_cons, hnotp]
      simpa [snapKeyCount] using h

/-- The update arm of the agency snapshot upsert does not modify key columns. -/
theorem agencySnapKeyB_update_pres (snap : AgencySnapshot) (a2 d2 : Nat)
    (r : AgencySnapshotRow) :
    agencySnapKeyB a2 d2
      (if agencySnapKeyB snap.AgencyID snap.SnapshotDate r then
        { r with agencyName := snap.AgencyName, totalWordCount := snap.TotalWordCount,
                 regulationCount := snap.RegulationCount, checksum := snap.Checksum }
      else r) = agencySnapKeyB a2 d2 r := by
  simp only [agencySnapKeyB]
  split <;> rfl

/-- Link insertion does not touch the snapshot table. -/
theorem insertSnapshotLinks_snapshots (db : AgencySnapDB) (snapId : Nat)
    (tns : List Nat) :
    (insertSnapshotLinks db snapId tns).snapshots = db.snapshots := rfl

/-- `InsertSnapshotIfChanged` keeps at most one row per `(agency_id, snapshot_date)`. -/
theorem agencySnapKeyCount_insertSnapshotIfChanged (db : AgencySnapDB)
    (snap : AgencySnapshot) (tns : List Nat) (a2 d2 : Nat)
    (h : agencySnapKeyCount db a2 d2 ≤ 1) :
    agencySnapKeyCount (InsertSnapshotIfChanged db snap tns).1 a2 d2 ≤ 1 := by
  cases hf : db.snapshots.find? (agencySnapKeyB snap.AgencyID snap.SnapshotDate) with
  | some r =>
    by_cases hsame : (r.checksum == snap.Checksum) = true
    · have hres : (InsertSnapshotIfChanged db snap tns).1 = db := by
        simp only [InsertSnapshotIfChanged, hf, hsame]
        rfl
      rw [hres]
      exact h
    · have hres : (InsertSnapshotIfChanged db snap tns).1.snapshots =
          db.snapshots.map (fun r0 =>
            if agencySnapKeyB snap.AgencyID snap.SnapshotDate r0 then
              { r0 with agencyName := snap.AgencyName,
                        totalWordCount := snap.TotalWordCount,
                        regulationCount := snap.RegulationCount,
                        checksum := snap.Checksum }
            else r0) := by
        simp only [InsertSnapshotIfChanged, hf]
        rw [if_neg hsame]
        rfl
      rw [agencySnapKeyCount, hres]
      rw [length_filter_map_of_pres _ _ _ (agencySnapKeyB_update_pres snap a2 d2)]
      exact h
  | none =>
    have hall : ∀ x ∈ db.snapshots, ¬ agencySnapKeyB snap.AgencyID snap.SnapshotDate x = true :=
      List.find?_eq_none.mp hf
    have hres : (InsertSnapshotIfChanged db snap tns).1.snapshots =
        db.snapshots ++ [agencySnapRow db.nextId snap] := by
      simp only [InsertSnapshotIfChanged, hf]
      rfl
    rw [agencySnapKeyCount, hres]
    rw [List.filter_append, List.length_append]
    by_cases hnew : a2 = snap.AgencyID ∧ d2 = snap.SnapshotDate
    · rcases hnew with ⟨hn, hd⟩
      have hzero : (db.snapshots.filter (agencySnapKeyB a2 d2)).length = 0 := by
        rw [hn, hd, List.length_eq_zero, List.filter_eq_nil_iff]
        exact hall
      rw [hzero]
      simpa using length_filter_singleton_le (agencySnapKeyB a2 d2) _
    · have hnotp : agencySnapKeyB a2 d2 (agencySnapRow db.nextId snap) = false := by
        simp only [agencySnapKeyB, agencySnapRow, Bool.and_eq_false_iff,
          beq_eq_false_iff_ne, ne_eq]
        omega
      simp only [List.filter_cons, hnotp]
      simpa [agencySnapKeyCount] using h

/-- C2: re-running `SaveTitleWithSnapshot` for a `(title, date)` whose stored
snapshot already carries the same checksum reports no change and writes nothing
but the current-state upsert; running it with a different checksum updates the
snapshot row for that date in place (same row count, the row now carries the
new checksum) and there is still at most one snapshot row per
`(title_number, snapshot_date)`; running it for a date with no snapshot row
appends exactly one new row for that date. `InsertSnapshotIfChanged` behaves
the same way for agency snapshots. -/
theorem snapshot_idempotence_spec :
    (∀ (db : TitleDB) (t : Title) (d : Nat),
      (∀ r, db.snapshots.find? (snapKeyB t.TitleNumber d) = some r →
          r.checksum = t.Checksum →
          SaveTitleWithSnapshot db t d = (upsertTitle db t, false)) ∧
      (∀ r, db.snapshots.find? (snapKeyB t.TitleNumber d) = some r →
          r.checksum ≠ t.Checksum →
          (SaveTitleWithSnapshot db t d).2 = true ∧
          (SaveTitleWithSnapshot db t d).1.snapshots.length = db.snapshots.length ∧
          ∃ r', r' ∈ (SaveTitleWithSnapshot db t d).1.snapshots ∧
            snapKeyB t.TitleNumber d r' = true ∧ r'.checksum = t.Checksum) ∧
      (∀ n dd, snapKeyCount db n dd ≤ 1 →
          snapKeyCount (SaveTitleWithSnapshot db t d).1 n dd ≤ 1) ∧
      (db.snapshots.find? (snapKeyB t.TitleNumber d) = none →
          (SaveTitleWithSnapshot db t d).2 = true ∧
          (SaveTitleWithSnapshot db t d).1.snapshots =
            db.snapshots ++
              [{ rowId := (upsertTitle db t).nextId, titleNumber := t.TitleNumber,
                 titleName := t.TitleName, wordCount := t.WordCount,
                 sectionCount := t.SectionCount, checksum := t.Checksum,
                 lastAmendedDate := t.LastAmendedDate, snapshotDate := d }])) ∧
    (∀ (adb : AgencySnapDB) (snap : AgencySnapshot) (tns : List Nat),
      (∀ r, adb.snapshots.find? (agencySnapKeyB snap.AgencyID snap.SnapshotDate) = some r →
          r.checksum = snap.Checksum →
          InsertSnapshotIfChanged adb snap tns = (adb, false)) ∧
      (∀ r, adb.snapshots.find? (agencySnapKeyB snap.AgencyID snap.SnapshotDate) = some r →
          r.checksum ≠ snap.Checksum →
          (InsertSnapshotIfChanged adb snap tns).2 = true ∧
          (InsertSnapshotIfChanged adb snap tns).1.snapshots.length =
            adb.snapshots.length ∧
          ∃ r', r' ∈ (InsertSnapshotIfChanged adb snap tns).1.snapshots ∧
            agencySnapKeyB snap.AgencyID snap.SnapshotDate r' = true ∧
            r'.checksum = snap.Checksum) ∧
      (∀ a2 d2, agencySnapKeyCount adb a2 d2 ≤ 1 →
          agencySnapKeyCount (InsertSnapshotIfChanged adb snap tns).1 a2 d2 ≤ 1) ∧
      (adb.snapshots.find? (agencySnapKeyB snap.AgencyID snap.SnapshotDate) = none →
          (InsertSnapshotIfChanged adb snap tns).2 = true ∧
          (InsertSnapshotIfChanged adb snap tns).1.snapshots =
            adb.snapshots ++ [agencySnapRow adb.nextId snap])) := by
  constructor
  · intro db t d
    refine ⟨?_, ?_, ?_, ?_⟩
    · intro r hr hch
      simp only [SaveTitleWithSnapshot, hr, hch, bne_self_eq_false]
      rfl
    · intro r hr hne
      have hchanged : (r.checksum != t.Checksum) = true := bne_iff_ne.mpr hne
      have hmem : r ∈ db.snapshots := List.mem_of_find?_eq_some hr
      have hpred : snapKeyB t.TitleNumber d r = true := List.find?_some hr
      have hany : (upsertTitle db t).snapshots.any (snapKeyB t.TitleNumber d) = true := by
        rw [upsertTitle_snapshots]
        exact List.any_eq_true.mpr ⟨r, hmem, hpred⟩
      have hres : (SaveTitleWithSnapshot db t d).1 =
          upsertTitleSnapshot (upsertTitle db t) t d := by
        simp only [SaveTitleWithSnapshot, hr, hchanged, if_true]
      refine ⟨by simp only [SaveTitleWithSnapshot, hr, hchanged], ?_, ?_⟩
      · rw [hres, upsertTitleSnapshot, if_pos hany]
        simp [upsertTitle_snapshots]
      · rw [hres, upsertTitleSnapshot, if_pos hany]
        refine ⟨_, List.mem_map_of_mem _ ((upsertTitle_snapshots db t).symm ▸ hmem), ?_, ?_⟩
        · rw [if_pos hpred]
          simpa [snapKeyB] using hpred
        · rw [if_pos hpred]
    · intro n dd hcount
      simp only [SaveTitleWithSnapshot]
      cases hf : db.snapshots.find? (snapKeyB t.TitleNumber d) with
      | some r =>
        by_cases hb : (r.checksum != t.Checksum) = true
        · simp only [hb, if_true]
          apply snapKeyCount_upsertTitleSnapshot
          simpa [snapKeyCount, upsertTitle_snapshots] using hcount
        · simp only [hb, if_false]
          simpa [snapKeyCount, upsertTitle_snapshots] using hcount
      | none =>
        simp only [if_true]
        apply snapKeyCount_upsertTitleSnapshot
        simpa [snapKeyCount, upsertTitle_snapshots] using hcount
    · intro hf
      have hall : ∀ x ∈ db.snapshots, ¬ snapKeyB t.TitleNumber d x = true :=
        List.find?_eq_none.mp hf
      have hany : (upsertTitle db t).snapshots.any (snapKeyB t.TitleNumber d) = false := by
        rw [upsertTitle_snapshots]
        simpa [List.any_eq_true] using hall
      refine ⟨by simp only [SaveTitleWithSnapshot, hf], ?_⟩
      have hres : (SaveTitleWithSnapshot db t d).1 =
          upsertTitleSnapshot (upsertTitle db t) t d := by
        simp only [SaveTitleWithSnapshot, hf, if_true]
      rw [hres, upsertTitleSnapshot, if_neg (by simp [hany]), upsertTitle_snapshots]
  · intro adb snap tns
    refine ⟨?_, ?_, agencySnapKeyCount_insertSnapshotIfChanged adb snap tns, ?_⟩
    · intro r hr hch
      simp only [InsertSnapshotIfChanged, hr, hch, beq_self_eq_true, if_true]
    · intro r hr hne
      have hsame : (r.checksum == snap.Checksum) = false := by
        simpa using hne
      have hmem : r ∈ adb.snapshots := List.mem_of_find?_eq_some hr
      have hpred : agencySnapKeyB snap.AgencyID snap.SnapshotDate r = true :=
        List.find?_some hr
      have hres : (InsertSnapshotIfChanged adb snap tns).1.snapshots =
          adb.snapshots.map (fun r0 =>
            if agencySnapKeyB snap.AgencyID snap.SnapshotDate r0 then
              { r0 with agencyName := snap.AgencyName,
                        totalWordCount := snap.TotalWordCount,
                        regulationCount := snap.RegulationCount,
                        checksum := snap.Checksum }
            else r0) := by
        simp only [InsertSnapshotIfChanged, hr, hsame]
        rfl
      refine ⟨by simp only [InsertSnapshotIfChanged, hr, hsame]; rfl, ?_, ?_⟩
      · rw [hres]
        simp
      · rw [hres]
        refine ⟨_, List.mem_map_of_mem _ hmem, ?_, ?_⟩
        · rw [if_pos hpred]
          simpa [agencySnapKeyB] using hpred
        · rw [if_pos hpred]
    · intro hf
      refine ⟨by simp only [InsertSnapshotIfChanged, hf], ?_⟩
      simp only [InsertSnapshotIfChanged, hf]
      rfl

/-- Witness for C2: on a one-row snapshot table, a same-checksum save reports
`false` and leaves the snapshot table alone; a different-checksum save for the
same date updates in place; a save for a fresh date appends one row; and the
agency-side function behaves likewise on a same-checksum re-run. -/
theorem snapshot_idempotence_witness :
    SaveTitleWithSnapshot exTitleDB exTitleSame 10 =
      (upsertTitle exTitleDB exTitleSame, false) ∧
    (SaveTitleWithSnapshot exTitleDB exTitleNew 10).2 = true ∧
    (SaveTitleWithSnapshot exTitleDB exTitleNew 10).1.snapshots.length = 1 ∧
    (SaveTitleWithSnapshot exTitleDB exTitleNew 20).2 = true ∧
    InsertSnapshotIfChanged exAgencyDB exAgencySnap [1, 2] = (exAgencyDB, false) := by
  refine ⟨(snapshot_idempotence_spec.1 exTitleDB exTitleSame 10).1 exTitleSnapRow
      (by decide) rfl,
    ((snapshot_idempotence_spec.1 exTitleDB exTitleNew 10).2.1 exTitleSnapRow
      (by decide) (by decide)).1,
    ?_,
    ((snapshot_idempotence_spec.1 exTitleDB exTitleNew 20).2.2.2 (by decide)).1,
    (snapshot_idempotence_spec.2 exAgencyDB exAgencySnap [1, 2]).1 exAgencySnapRow
      (by decide) rfl⟩
  rw [((snapshot_idempotence_spec.1 exTitleDB exTitleNew 10).2.1 exTitleSnapRow
      (by decide) (by decide)).2.1]
  decide

end Store

namespace Importer

/-- One iteration of the import loop never changes `Total`. -/
theorem importStep_total (stats : ImportStats) (t : Bool × TitleOutcome) :
    (importStep stats t).Total = stats.Total := by
  rcases t with ⟨res, out⟩
  cases res <;> cases out <;> simp [importStep]

/-- The import loop never changes `Total`. -/
theorem foldl_importStep_total (l : List (Bool × TitleOutcome)) (stats : ImportStats) :
    (l.foldl importStep stats).Total = stats.Total := by
  induction l generalizing stats with
  | nil => rfl
  | cons t ts ih => rw [List.foldl_cons, ih, importStep_total]

/-- A run over reserved titles only increments `Skipped` once per title. -/
theorem foldl_importStep_all_reserved (l : List (Bool × TitleOutcome))
    (stats : ImportStats) (h : ∀ t ∈ l, t.1 = true) :
    (l.foldl importStep stats).Skipped = stats.Skipped + l.length := by
  induction l generalizing stats with
  | nil => simp
  | cons t ts ih =>
    have ht : t.1 = true := h t (List.mem_cons_self t ts)
    rw [List.foldl_cons]
    rw [ih _ (fun x hx => h x (List.mem_cons_of_mem t hx))]
    simp [importStep, ht]
    omega

/-- C9: `PrintSummary` computes the success rate as
`Imported / (Total - Skipped) * 100` with no guard; whenever `Total` equals
`Skipped` the divisor of that expression is zero — and an import run in which
every title is reserved produces exactly such statistics. -/
theorem success_rate_divisor_spec :
    (∀ stats : ImportStats, stats.Total = stats.Skipped →
        printSummaryDivisor stats = 0) ∧
    (∀ titles : List (Bool × TitleOutcome), (∀ t ∈ titles, t.1 = true) →
        (runImport titles).Total = (runImport titles).Skipped ∧
        printSummaryDivisor (runImport titles) = 0) := by
  constructor
  · intro stats h
    simp [printSummaryDivisor, h]
  · intro titles h
    have htot : (runImport titles).Total = titles.length := by
      simp [runImport, foldl_importStep_total]
    have hskip : (runImport titles).Skipped = titles.length := by
      rw [runImport, foldl_importStep_all_reserved titles _ h]
      simp
    refine ⟨htot.trans hskip.symm, ?_⟩
    simp [printSummaryDivisor, htot, hskip]

/-- Membership in the union of the children's sets is reachability through
some child. -/
theorem mem_childTitleSets (cs : List AgencyNode) (x : Nat) :
    x ∈ childTitleSets cs ↔ ∃ c ∈ cs, x ∈ calculateAgencyWordCount c := by
  induction cs with
  | nil => simp [childTitleSets]
  | cons c cs ih =>
    simp only [childTitleSets, Finset.mem_union, ih, List.mem_cons]
    constructor
    · rintro (hx | ⟨c', hc', hx⟩)
      · exact ⟨c, Or.inl rfl, hx⟩
      · exact ⟨c', Or.inr hc', hx⟩
    · rintro ⟨c', hc' | hc', hx⟩
      · subst hc'
        exact Or.inl hx
      · exact Or.inr ⟨c', hc', hx⟩

/-- First component of the rollup loop: the running sum of word counts. -/
theorem sumAndSerialize_fst (wc : Nat → Nat) (l : List Nat) :
    (sumAndSerialize wc l).1 = (l.map wc).sum := by
  suffices h : ∀ (a : Nat) (s : String),
      (l.foldl
        (fun acc t => (acc.1 + wc t, acc.2 ++ toString t ++ ":" ++ toString (wc t) ++ ";"))
        (a, s)).1 = a + (l.map wc).sum by
    simpa [sumAndSerialize] using h 0 ""
  induction l with
  | nil => simp
  | cons t ts ih =>
    intro a s
    simp only [List.foldl_cons, List.map_cons, List.sum_cons, ih]
    omega

/-- The aggregate word count of a node is the sum of `wc` over its
de-duplicated reachable title set: each member contributes exactly once. -/
theorem totalWordCount_eq_sum (wc : Nat → Nat) (n : AgencyNode) :
    totalWordCount wc n = (calculateAgencyWordCount n).sum wc := by
  rw [totalWordCount, sumAndSerialize_fst, sortedTitleNums]
  rw [List.Perm.sum_eq ((Finset.sort_perm_toList (· ≤ ·) (calculateAgencyWordCount n)).map wc)]
  exact Finset.sum_to_list _ wc

/-- C1: the reachable-title set computed by `calculateAgencyWordCount` for a
node is the set union of its directly linked title numbers and its children's
sets; the persisted regulation count is the cardinality of that set and the
persisted word count is the sum of each member's word count taken exactly once;
in particular a title linked by two distinct children of the same parent
contributes one regulation and one word-count summand to the parent. -/
theorem rollup_dedup_spec (wc : Nat → Nat) :
    (∀ (id : Nat) (direct : List Nat) (children : List AgencyNode),
        calculateAgencyWordCount (.mk id direct children) =
          direct.toFinset ∪ childTitleSets children) ∧
    (∀ (cs : List AgencyNode) (x : Nat),
        x ∈ childTitleSets cs ↔ ∃ c ∈ cs, x ∈ calculateAgencyWordCount c) ∧
    (∀ n : AgencyNode,
        totalWordCount wc n = (calculateAgencyWordCount n).sum wc ∧
        regulationCount n = (calculateAgencyWordCount n).card) ∧
    (∀ idp idc1 idc2 t : Nat,
        regulationCount (.mk idp [] [.mk idc1 [t] [], .mk idc2 [t] []]) = 1 ∧
        totalWordCount wc (.mk idp [] [.mk idc1 [t] [], .mk idc2 [t] []]) = wc t) := by
  refine ⟨fun id direct children => by rw [calculateAgencyWordCount],
          mem_childTitleSets,
          fun n => ⟨totalWordCount_eq_sum wc n, rfl⟩,
          fun idp idc1 idc2 t => ?_⟩
  have hset : calculateAgencyWordCount
      (.mk idp [] [.mk idc1 [t] [], .mk idc2 [t] []]) = {t} := by
    simp [calculateAgencyWordCount, childTitleSets]
  constructor
  · rw [regulationCount, hset]
    simp
  · rw [totalWordCount_eq_sum, hset]
    simp

set_option maxRecDepth 10000 in
/-- C3: the aggregate checksum is a function only of the de-duplicated
reachable title set (with each member's word count): any two nodes whose sets
are equal — regardless of the order of children or of title links — get the
same checksum, word count, and regulation count, because the title numbers are
sorted before serialization; and a node with zero reachable titles gets the
deterministic digest of the empty serialization, zero words, and zero titles,
not a null checksum. -/
theorem rollup_checksum_deterministic (wc : Nat → Nat) :
    (∀ n1 n2 : AgencyNode,
        calculateAgencyWordCount n1 = calculateAgencyWordCount n2 →
        agencyChecksum wc n1 = agencyChecksum wc n2 ∧
        totalWordCount wc n1 = totalWordCount wc n2 ∧
        regulationCount n1 = regulationCount n2) ∧
    (∀ id1 : Nat,
        calculateAgencyWordCount (.mk id1 [] []) = ∅ ∧
        agencyChecksum wc (.mk id1 [] []) = Service.md5Hex (Service.strBytes "") ∧
        agencyChecksum wc (.mk id1 [] []) = "d41d8cd98f00b204e9800998ecf8427e" ∧
        totalWordCount wc (.mk id1 [] []) = 0 ∧
        regulationCount (.mk id1 [] []) = 0) := by
  constructor
  · intro n1 n2 h
    refine ⟨?_, ?_, ?_⟩
    · rw [agencyChecksum, agencyChecksum, checksumInput, checksumInput,
        sortedTitleNums, sortedTitleNums, h]
    · rw [totalWordCount, totalWordCount, sortedTitleNums, sortedTitleNums, h]
    · rw [regulationCount, regulationCount, h]
  · intro id1
    have hset : calculateAgencyWordCount (.mk id1 [] []) = (∅ : Finset Nat) := by
      simp [calculateAgencyWordCount, childTitleSets]
    have hsort : sortedTitleNums (.mk id1 [] []) = [] := by
      rw [sortedTitleNums, hset]
      simp
    have hinput : checksumInput wc (.mk id1 [] []) = "" := by
      rw [checksumInput, hsort]
      rfl
    refine ⟨hset, ?_, ?_, ?_, ?_⟩
    · rw [agencyChecksum, hinput]
    · rw [agencyChecksum, hinput]
      decide
    · rw [totalWordCount, hsort]
      rfl
    · rw [regulationCount, hset]
      rfl

/-- Witness for C3: two nodes whose direct links list the same two titles in
opposite iteration order have equal reachable sets and therefore identical
checksums, word counts, and regulation counts. -/
theorem rollup_checksum_deterministic_witness :
    agencyChecksum (fun t => t * 10) (.mk 0 [1, 2] []) =
      agencyChecksum (fun t => t * 10) (.mk 0 [2, 1] []) ∧
    totalWordCount (fun t => t * 10) (.mk 0 [1, 2] []) =
      totalWordCount (fun t => t * 10) (.mk 0 [2, 1] []) ∧
    regulationCount (.mk 0 [1, 2] []) = regulationCount (.mk 0 [2, 1] []) :=
  (rollup_checksum_deterministic (fun t => t * 10)).1
    (.mk 0 [1, 2] []) (.mk 0 [2, 1] [])
    (by simp [calculateAgencyWordCount, childTitleSets]; decide)

/-- Witness for C9: a run whose two titles are both reserved has a zero
success-rate divisor. -/
theorem success_rate_divisor_witness :
    (runImport [(true, TitleOutcome.failed), (true, TitleOutcome.changedOk)]).Total =
      (runImport [(true, TitleOutcome.failed), (true, TitleOutcome.changedOk)]).Skipped ∧
    printSummaryDivisor
      (runImport [(true, TitleOutcome.failed), (true, TitleOutcome.changedOk)]) = 0 :=
  success_rate_divisor_spec.2
    [(true, TitleOutcome.failed), (true, TitleOutcome.changedOk)]
    (by decide)

end Importer

namespace Store

/-- Collected densities are in bijection with the agencies that have titles. -/
theorem collectDensities_length (l : List AgencyWithDepth) (i : Nat) :
    (collectDensities l i).length = (l.filter (fun a => 0 < a.TitleCount)).length := by
  induction l generalizing i with
  | nil => rfl
  | cons a rest ih =>
    by_cases h : 0 < a.TitleCount <;>
      simp [collectDensities, List.filter_cons, h, ih]

/-- With no agency having titles, nothing is collected. -/
theorem collectDensities_nil_of_all_zero (l : List AgencyWithDepth) (i : Nat)
    (h : ∀ a ∈ l, a.TitleCount = 0) : collectDensities l i = [] := by
  induction l generalizing i with
  | nil => rfl
  | cons a rest ih =>
    have ha : a.TitleCount = 0 := h a (List.mem_cons_self a rest)
    rw [collectDensities, if_neg (by omega)]
    exact ih _ (fun x hx => h x (List.mem_cons_of_mem a hx))

/-- Insertion introduces no new elements. -/
theorem mem_insertByDensity (x y : Nat × ℚ) (l : List (Nat × ℚ))
    (h : x ∈ insertByDensity y l) : x = y ∨ x ∈ l := by
  induction l with
  | nil => simpa [insertByDensity] using h
  | cons z zs ih =>
    rw [insertByDensity] at h
    by_cases hc : y.2 < z.2
    · rw [if_pos hc] at h
      rcases List.mem_cons.mp h with h1 | h1
      · exact Or.inl h1
      · exact Or.inr h1
    · rw [if_neg hc] at h
      rcases List.mem_cons.mp h with h1 | h1
      · exact Or.inr (by rw [h1]; exact List.mem_cons_self z zs)
      · rcases ih h1 with h2 | h2
        · exact Or.inl h2
        · exact Or.inr (List.mem_cons_of_mem z h2)

/-- Sorting introduces no new elements. -/
theorem mem_sortByDensity (x : Nat × ℚ) (l : List (Nat × ℚ))
    (h : x ∈ sortByDensity l) : x ∈ l := by
  induction l with
  | nil => simp [sortByDensity] at h
  | cons y ys ih =>
    rw [sortByDensity] at h
    rcases mem_insertByDensity x y _ h with h1 | h1
    · rw [h1]
      exact List.mem_cons_self y ys
    · exact List.mem_cons_of_mem y (ih h1)

/-- Every index scored by the rank-assignment loop carries an index collected
into the density population. -/
theorem mem_assignScores (n : Nat) (l : List (Nat × ℚ)) (r j : Nat) (q : ℚ)
    (h : (j, q) ∈ assignScores n l r) : ∃ q', (j, q') ∈ l := by
  induction l generalizing r with
  | nil => simp [assignScores] at h
  | cons d rest ih =>
    rw [assignScores] at h
    rcases List.mem_cons.mp h with h1 | h1
    · have hj : j = d.1 := by
        have := congrArg Prod.fst h1
        simpa using this
      exact ⟨d.2, by rw [hj]; exact List.mem_cons_self _ _⟩
    · rcases ih _ h1 with ⟨q', hq'⟩
      exact ⟨q', List.mem_cons_of_mem _ hq'⟩

/-- A key absent from an association list looks up to `none`. -/
theorem lookup_eq_none_of_not_mem (l : List (Nat × ℚ)) (i : Nat)
    (h : ∀ q, (i, q) ∉ l) : l.lookup i = none := by
  induction l with
  | nil => rfl
  | cons d rest ih =>
    rcases d with ⟨k, v⟩
    rw [List.lookup]
    by_cases hik : i = k
    · exact absurd (by rw [hik]; exact List.mem_cons_self _ _) (h v)
    · simp only [beq_eq_false_iff_ne.mpr hik]
      exact ih (fun q hq => h q (List.mem_cons_of_mem _ hq))

/-- Score write-back at an index: the entry is rewritten exactly when the
score list carries its index, and untouched otherwise. -/
theorem applyScores_get? (scores : List (Nat × ℚ)) (l : List AgencyWithDepth)
    (i0 k : Nat) :
    (applyScores scores l i0).get? k = (l.get? k).map (fun a =>
      match scores.lookup (i0 + k) with
      | some sc => { a with DensityScore := sc }
      | none => a) := by
  induction l generalizing i0 k with
  | nil => simp [applyScores]
  | cons a rest ih =>
    cases k with
    | zero => simp [applyScores, List.get?]
    | succ k =>
      have harith : i0 + 1 + k = i0 + (k + 1) := by omega
      rw [applyScores]
      show (applyScores scores rest (i0 + 1)).get? k = _
      rw [ih (i0 + 1) k, harith]
      rfl

/-- Every collected `(index, density)` pair points back at an agency with
titles at that index. -/
theorem collectDensities_mem_index (l : List AgencyWithDepth) (base j : Nat) (q : ℚ)
    (h : (j, q) ∈ collectDensities l base) :
    base ≤ j ∧ ∃ a, l.get? (j - base) = some a ∧ 0 < a.TitleCount := by
  induction l generalizing base with
  | nil => simp [collectDensities] at h
  | cons a rest ih =>
    rw [collectDensities] at h
    by_cases hp : 0 < a.TitleCount
    · rw [if_pos hp] at h
      rcases List.mem_cons.mp h with h1 | h1
      · have hj : j = base := by
          have := congrArg Prod.fst h1
          simpa using this
        subst hj
        exact ⟨le_refl j, a, by simp [List.get?], hp⟩
      · rcases ih (base + 1) h1 with ⟨hle, a', ha', hpa'⟩
        refine ⟨by omega, a', ?_, hpa'⟩
        have hj : j - base = (j - (base + 1)) + 1 := by omega
        rw [hj]
        simpa [List.get?] using ha'
    · rw [if_neg hp] at h
      rcases ih (base + 1) h with ⟨hle, a', ha', hpa'⟩
      refine ⟨by omega, a', ?_, hpa'⟩
      have hj : j - base = (j - (base + 1)) + 1 := by omega
      rw [hj]
      simpa [List.get?] using ha'

/-- An agency with titles at index `i` is collected with key `base + i`. -/
theorem collectDensities_mem_of_get (l : List AgencyWithDepth) (i base : Nat)
    (a : AgencyWithDepth) (hget : l.get? i = some a) (hp : 0 < a.TitleCount) :
    (base + i, (a.TotalWordCount : ℚ) / (a.TitleCount : ℚ)) ∈ collectDensities l base := by
  induction l generalizing i base with
  | nil => simp [List.get?] at hget
  | cons x rest ih =>
    cases i with
    | zero =>
      have hxa : x = a := by simpa [List.get?] using hget
      subst hxa
      rw [collectDensities, if_pos hp]
      simp
    | succ i =>
      have hget' : rest.get? i = some a := by simpa [List.get?] using hget
      have hmem := ih i (base + 1) hget'
      have harith : base + (i + 1) = (base + 1) + i := by omega
      rw [collectDensities]
      by_cases hx : 0 < x.TitleCount
      · rw [if_pos hx, harith]
        exact List.mem_cons_of_mem _ hmem
      · rw [if_neg hx, harith]
        exact hmem

end Store

namespace Store

/-- C8: in the percentile density computation, when exactly one agency has
nonzero structural units its density score is `0.5`; when zero agencies have
nonzero structural units no score is computed at all (the input is returned
untouched — not zeroed, not an error); and every agency with zero structural
units is excluded from the percentile population and keeps its prior score
rather than being assigned one. -/
theorem density_score_edge_cases :
    (∀ (l : List AgencyWithDepth) (i : Nat) (a : AgencyWithDepth),
        (l.filter (fun x => 0 < x.TitleCount)).length = 1 →
        l.get? i = some a → 0 < a.TitleCount →
        (calculateDensityScores l).get? i = some { a with DensityScore := 1 / 2 }) ∧
    (∀ l : List AgencyWithDepth, (∀ a ∈ l, a.TitleCount = 0) →
        calculateDensityScores l = l) ∧
    (∀ (l : List AgencyWithDepth) (i : Nat) (a : AgencyWithDepth),
        l.get? i = some a → a.TitleCount = 0 →
        (calculateDensityScores l).get? i = some a) := by
  refine ⟨?_, ?_, ?_⟩
  · intro l i a hlen hget hpos
    have hmem := collectDensities_mem_of_get l i 0 a hget hpos
    rw [Nat.zero_add] at hmem
    have hclen : (collectDensities l 0).length = 1 := by
      rw [collectDensities_length]
      exact hlen
    rcases List.length_eq_one.mp hclen with ⟨x, hx⟩
    rw [hx] at hmem
    have hxval : x = (i, (a.TotalWordCount : ℚ) / (a.TitleCount : ℚ)) :=
      (List.mem_singleton.mp hmem).symm
    rw [calculateDensityScores, hx, hxval]
    rw [if_neg (by simp)]
    rw [applyScores_get?]
    rw [hget, Nat.zero_add]
    rw [show sortByDensity [(i, (a.TotalWordCount : ℚ) / (a.TitleCount : ℚ))] =
      [(i, (a.TotalWordCount : ℚ) / (a.TitleCount : ℚ))] from rfl]
    rw [List.length_singleton]
    rw [show assignScores 1 [(i, (a.TotalWordCount : ℚ) / (a.TitleCount : ℚ))] 0 =
      [(i, 1 / 2)] by rw [assignScores, assignScores, if_pos rfl]]
    simp [List.lookup]
  · intro l h
    rw [calculateDensityScores, collectDensities_nil_of_all_zero l 0 h]
    rfl
  · intro l i a hget hzero
    by_cases hd : (collectDensities l 0).isEmpty = true
    · rw [calculateDensityScores, if_pos hd]
      exact hget
    · rw [calculateDensityScores, if_neg hd]
      rw [applyScores_get?, hget, Nat.zero_add]
      have hnone : (assignScores (sortByDensity (collectDensities l 0)).length
          (sortByDensity (collectDensities l 0)) 0).lookup i = none := by
        apply lookup_eq_none_of_not_mem
        intro q hq
        rcases mem_assignScores _ _ _ _ _ hq with ⟨q2, hq2⟩
        have hq3 := mem_sortByDensity _ _ hq2
        rcases collectDensities_mem_index l 0 i q2 hq3 with ⟨-, a2, ha2, hpa2⟩
        rw [Nat.sub_zero, hget] at ha2
        have ha2a : a2 = a := by injection ha2.symm
        rw [ha2a] at hpa2
        omega
      rw [hnone]
      rfl

/-- Witness for C8: in a two-agency store where only the second agency has
titles, that agency gets score `0.5` while the zero-title agency is untouched;
a store where no agency has titles comes back unchanged. -/
theorem density_score_edge_cases_witness :
    (calculateDensityScores
        [{ TotalWordCount := 100, TitleCount := 0, DensityScore := 0 },
         { TotalWordCount := 50, TitleCount := 5, DensityScore := 0 }]).get? 1 =
      some { TotalWordCount := 50, TitleCount := 5, DensityScore := 1 / 2 } ∧
    calculateDensityScores [{ TotalWordCount := 3, TitleCount := 0, DensityScore := 0 }] =
      [{ TotalWordCount := 3, TitleCount := 0, DensityScore := 0 }] ∧
    (calculateDensityScores
        [{ TotalWordCount := 100, TitleCount := 0, DensityScore := 0 },
         { TotalWordCount := 50, TitleCount := 5, DensityScore := 0 }]).get? 0 =
      some { TotalWordCount := 100, TitleCount := 0, DensityScore := 0 } :=
  ⟨density_score_edge_cases.1
      [{ TotalWordCount := 100, TitleCount := 0, DensityScore := 0 },
       { TotalWordCount := 50, TitleCount := 5, DensityScore := 0 }] 1
      { TotalWordCount := 50, TitleCount := 5, DensityScore := 0 }
      (by decide) (by decide) (by decide),
   density_score_edge_cases.2.1
      [{ TotalWordCount := 3, TitleCount := 0, DensityScore := 0 }] (by decide),
   density_score_edge_cases.2.2
      [{ TotalWordCount := 100, TitleCount := 0, DensityScore := 0 },
       { TotalWordCount := 50, TitleCount := 5, DensityScore := 0 }] 0
      { TotalWordCount := 100, TitleCount := 0, DensityScore := 0 }
      (by decide) (by decide)⟩

end Store
